import Mathlib

/-!
Shallow embedding of the plugin runtime engine
(`src/projects/engine/src/engine/next-gen-engine.ts`).

The `Engine` class fields `plugins`, `events` and `listeners` are declared
but never assigned in the source, so they hold `undefined` until something
throws; we model each field as an `Option` of its table, with `none`
standing for `undefined`, and indexing into `none` producing a `TypeError`.

JavaScript objects used as string-keyed records are modelled as association
lists (`List (String × β)`): key order is insertion order, assignment to an
existing key keeps its position, which matches JS object semantics.

The `PluginManager` / permission authority is an external collaborator
(its source is not part of the engine file); the engine only calls
`getProfile`, `isActive`, `canCall`, `canActivate`, `toggleActive` and
`addProfile` on it, so it is modelled as a record of pure query functions
(spec §6), with the mutating calls (`addProfile`, `toggleActive`) and the
plugin hooks recorded in an effect trace.

Callbacks are opaque: a callback is identified by a numeric id `Cb`, and a
broadcast returns the ordered list of (callback id, payload) invocations it
performs instead of running arbitrary code.
-/

namespace NextGenEngine

/-- Opaque callback identity: the engine only stores and invokes callbacks,
never inspects them. -/
abbrev Cb := Nat

/-- Opaque payload values carried by events and method calls. -/
abbrev Val := Nat

/-- Public descriptor of a plugin: its name and exposed method list
(spec §3 "Profile"). -/
structure Profile where
  name : String
  methods : List String
deriving DecidableEq, Repr

/-- State of the capability bundle dynamically attached to a plugin handle:
never installed, installed live closures (`on/once/off/emit/call`), or the
failing stand-ins installed at deactivation. -/
inductive CapsKind where
  | uninstalled
  | installed
  | stubs
deriving DecidableEq, Repr

/-- A plugin handle as the engine sees it: identity, profile, whether its
`activate`/`deactivate` hooks settle successfully, plus the
engine-mutated capability bundle and cached app snapshot (the snapshot is
modelled by the list of profiles it was built from). -/
structure Plugin where
  name : String
  profile : Profile
  activateOk : Bool
  deactivateOk : Bool
  caps : CapsKind
  app : Option (List Profile)
deriving DecidableEq, Repr

/-- Association-list lookup, first binding wins (JS property read). -/
def lookupA {β : Type} (k : String) : List (String × β) → Option β
  | [] => none
  | (k', v) :: t => if k' = k then some v else lookupA k t

/-- Association-list assignment: replace in place if the key exists
(keeping its position, as JS objects do), else append. -/
def insertA {β : Type} (k : String) (v : β) : List (String × β) → List (String × β)
  | [] => [(k, v)]
  | (k', v') :: t => if k' = k then (k', v) :: t else (k', v') :: insertA k v t

/-- Association-list deletion of the first binding of `k`
(JS `delete obj[k]`; keys are unique in states built by `insertA`). -/
def eraseA {β : Type} (k : String) : List (String × β) → List (String × β)
  | [] => []
  | (k', v') :: t => if k' = k then t else (k', v') :: eraseA k t

/-- Modelled from the spec: the repository's `listenEvent` helper (imported
from `utils`, whose source is not included) builds the string-concatenated
composite event key from emitter and event names ("String-concatenated
composite event keys", spec §9). The exact format is irrelevant to every
claim; only that both `addListener` and `broadcast` use the same key. -/
def listenEvent (emitter event : String) : String :=
  "[" ++ emitter ++ "] " ++ event

/-- Ambient global `name` binding (the browser's `window.name`, the empty
string by default) that `Engine.addListener` lines 62-63 reference in place
of its `listener` parameter; spec §9 flags this out-of-scope identifier as
a source bug. -/
def globalName : String := ""

/-- Engine-owned mutable state: the plugin registry, the per-listener
callback tables (`events[listener][compositeKey] = cb`) and the
listener-record sets (`listeners[compositeKey] = array of names`). Each
field is `none` while the corresponding class field is still `undefined`
(they are declared without initializer in the source). The three `Bool`
fields record whether the optional `onRegistration` / `onActivated` /
`onDeactivated` hooks are defined on the engine. -/
structure EngineState where
  plugins : Option (List (String × Plugin))
  events : Option (List (String × List (String × Cb)))
  listeners : Option (List (String × List String))
  hasOnRegistration : Bool
  hasOnActivated : Bool
  hasOnDeactivated : Bool
deriving DecidableEq, Repr

/-- The external PermissionAuthority / manager interface the engine
consumes (spec §6), as pure query functions. `getProfile` returns `none`
when the name is unknown (the real call rejects). -/
structure Manager where
  getProfile : String → Option Profile
  isActive : String → Bool
  canCall : Profile → Profile → String → Bool
  canActivate : Profile → Profile → Bool

/-- Observable external effects of an engine operation, in order: calls
into the manager (`addProfile`, `toggleActive`), plugin hook invocations,
engine hook firings, and request dispatch (`plugins[target].addRequest`). -/
inductive Effect where
  | addProfile (p : Profile)
  | onRegistration (name : String)
  | onActivated (name : String)
  | onDeactivated (name : String)
  | activateHook (name : String)
  | deactivateHook (name : String)
  | toggleActive (name : String)
  | addRequest (target fromName method : String) (payload : List Val)
deriving DecidableEq, Repr

/-- Errors an engine operation can surface: `typeError` models a JavaScript
`TypeError` from indexing/iterating `undefined`; the remaining constructors
model the explicit `throw new Error(...)` sites, carrying the data their
messages interpolate. -/
inductive EngErr where
  | typeError
  | alreadyRegistered (name : String)
  | notRegistered (name : String)
  | getProfileFailed (name : String)
  | permissionDenied (caller target method : String)
  | notActivatable (target method : String)
  | methodNotExposed (method target caller : String) (exposed : List String)
  | activateFailed (name : String)
  | deactivateFailed (name : String)
  | internalConsistency (listener eventName : String)
deriving DecidableEq, Repr

/-- Result of running one engine method: the returned value or thrown
error, the engine state afterwards (mutations made before a throw are
kept, as in the source), and the trace of external effects performed. -/
structure Res (α : Type) where
  val : Except EngErr α
  state : EngineState
  trace : List Effect

/-- `Engine.register` (source lines 263-270): throw `AlreadyRegistered` if
the name is present, else store the handle, forward the profile to the
manager (`addProfile`) and fire the optional `onRegistration` hook. Reading
`this.plugins[plugin.name]` while `plugins` is undefined throws. -/
def register (s : EngineState) (p : Plugin) : Res Unit :=
  match s.plugins with
  | none => ⟨.error .typeError, s, []⟩
  | some ps =>
    if (lookupA p.name ps).isSome then
      ⟨.error (.alreadyRegistered p.name), s, []⟩
    else
      ⟨.ok (), { s with plugins := some (insertA p.name p ps) },
        [.addProfile p.profile] ++
          (if s.hasOnRegistration then [.onRegistration p.name] else [])⟩

/-- The field declarations of `Engine` (source lines 6-9): `plugins`,
`events` and `listeners` are declared without initializer, so each starts
as `undefined`. -/
def initialState (hr ha hd : Bool) : EngineState :=
  ⟨none, none, none, hr, ha, hd⟩

/-- `Engine` constructor (source lines 15-19): builds the reserved
`"manager"` plugin from `managerProfile` (`new PluginManager(...)`) and
immediately calls `this.register(this.manager)` on the still-undefined
field state. The subsequent `this.activateManager()` call is not modelled
because `register` has already thrown by then (see
`engine_construction_always_fails`). -/
def mkEngine (managerProfile : Profile) (hr ha hd : Bool) : Res Unit :=
  let mgr : Plugin :=
    ⟨"manager", managerProfile, true, true, .uninstalled, none⟩
  register (initialState hr ha hd) mgr

/-- `Engine.addListener` (source lines 53-65). Line 56 first reads
`this.events[listener][eventName]` (throws if `events` or
`events[listener]` is undefined) and stores `cb` only if no callback is
already there ("first registration wins"). Lines 60-64 then record a
listener name in the `(emitter, event)` set — but the dedup test and the
`push` use the out-of-scope global `name` (`globalName`), not the
`listener` parameter. -/
def addListener (s : EngineState) (listener emitter event : String) (cb : Cb) :
    Res Unit :=
  let eventName := listenEvent emitter event
  match s.events with
  | none => ⟨.error .typeError, s, []⟩
  | some ev =>
    match lookupA listener ev with
    | none => ⟨.error .typeError, s, []⟩
    | some tbl =>
      let ev' := if (lookupA eventName tbl).isSome then ev
                 else insertA listener (insertA eventName cb tbl) ev
      match s.listeners with
      | none => ⟨.error .typeError, { s with events := some ev' }, []⟩
      | some ls =>
        let arr := (lookupA eventName ls).getD []
        let arr' := if globalName ∈ arr then arr else arr ++ [globalName]
        ⟨.ok (), { s with events := some ev',
                          listeners := some (insertA eventName arr' ls) }, []⟩

/-- `Engine.removeListener` (source lines 73-79). Line 76 filters the
listener out of `this.listeners[eventName]` — calling `.filter` on an
undefined entry throws — and line 78 `delete`s the stored callback —
indexing an undefined `this.events[listener]` throws, after the listeners
table was already reassigned. -/
def removeListener (s : EngineState) (listener emitter event : String) :
    Res Unit :=
  let eventName := listenEvent emitter event
  match s.listeners with
  | none => ⟨.error .typeError, s, []⟩
  | some ls =>
    match lookupA eventName ls with
    | none => ⟨.error .typeError, s, []⟩
    | some arr =>
      let ls' := insertA eventName (arr.filter (fun nm => nm != listener)) ls
      match s.events with
      | none => ⟨.error .typeError, { s with listeners := some ls' }, []⟩
      | some ev =>
        match lookupA listener ev with
        | none => ⟨.error .typeError, { s with listeners := some ls' }, []⟩
        | some tbl =>
          ⟨.ok (), { s with listeners := some ls',
                            events := some (insertA listener (eraseA eventName tbl) ev) },
            []⟩

/-- Fan-out loop of `Engine.broadcast` (source lines 38-43): walk the
listener names in order; for each, reading `this.events[listener]` while it
is undefined throws a `TypeError`, a present table without a callback for
the key throws the explicit internal-consistency `Error` (line 40), and
otherwise the stored callback is invoked with the payload. Returns the
ordered invocation list. -/
def runListeners (ev : List (String × List (String × Cb)))
    (eventName : String) (payload : List Val) :
    List String → Except EngErr (List (Cb × List Val))
  | [] => .ok []
  | l :: rest =>
    match lookupA l ev with
    | none => .error .typeError
    | some tbl =>
      match lookupA eventName tbl with
      | none => .error (.internalConsistency l eventName)
      | some cb =>
        match runListeners ev eventName payload rest with
        | .ok invs => .ok ((cb, payload) :: invs)
        | .error e => .error e

/-- `Engine.broadcast` (source lines 34-44): return immediately when no
listener-record entry exists for the composite key (line 36; reading
`this.listeners[eventName]` on an undefined `listeners` field throws),
else run the fan-out loop over the recorded names. Engine state is never
mutated by a broadcast. -/
def broadcast (s : EngineState) (emitter event : String) (payload : List Val) :
    Res (List (Cb × List Val)) :=
  let eventName := listenEvent emitter event
  match s.listeners with
  | none => ⟨.error .typeError, s, []⟩
  | some ls =>
    match lookupA eventName ls with
    | none => ⟨.ok [], s, []⟩
    | some arr =>
      match s.events with
      | none =>
        match arr with
        | [] => ⟨.ok [], s, []⟩
        | _ :: _ => ⟨.error .typeError, s, []⟩
      | some ev => ⟨runListeners ev eventName payload arr, s, []⟩

/-- Profile fetch loop of `Engine.createApp` (source lines 147-149):
`Object.keys(this.plugins).map(key => this.manager.getProfile(key))` under
`Promise.all` — the first unknown name rejects the whole batch. -/
def profilesOf (m : Manager) : List (String × Plugin) → Except EngErr (List Profile)
  | [] => .ok []
  | (k, _) :: t =>
    match m.getProfile k with
    | none => .error (.getProfileFailed k)
    | some p =>
      match profilesOf m t with
      | .ok rest => .ok (p :: rest)
      | .error e => .error e

/-- `Engine.activatePlugin` (source lines 169-201): throw `NotRegistered`
for an unknown name; return without touching anything when the manager
reports the plugin active; otherwise allocate `events[name]`, install the
capability closures, build and attach the app snapshot (`createApp`),
await the plugin's `activate` hook (a failure propagates with the
mutations kept) and fire the optional `onActivated` engine hook. -/
def activatePlugin (s : EngineState) (m : Manager) (name : String) : Res Unit :=
  match s.plugins with
  | none => ⟨.error .typeError, s, []⟩
  | some ps =>
    match lookupA name ps with
    | none => ⟨.error (.notRegistered name), s, []⟩
    | some plugin =>
      if m.isActive name then ⟨.ok (), s, []⟩
      else
        match s.events with
        | none => ⟨.error .typeError, s, []⟩
        | some ev =>
          let plugin' : Plugin := { plugin with caps := .installed }
          let s1 := { s with events := some (insertA name [] ev),
                             plugins := some (insertA name plugin' ps) }
          match profilesOf m ps with
          | .error e => ⟨.error e, s1, []⟩
          | .ok profs =>
            let plugin'' : Plugin := { plugin' with app := some profs }
            let s2 := { s1 with plugins := some (insertA name plugin'' ps) }
            if plugin.activateOk then
              ⟨.ok (), s2, [.activateHook name] ++
                (if s.hasOnActivated then [.onActivated name] else [])⟩
            else
              ⟨.error (.activateFailed name), s2, [.activateHook name]⟩

/-- One pass of the listener purge in `Engine.deactivatePlugin` (source
lines 249-253): `arr.forEach((listener, i) => { if (listener === name)
arr.splice(i, 1) })`. Splicing inside `forEach` shifts the array left, so
the element immediately after each removed occurrence is never examined:
removing the head of `nm :: b :: t` keeps `b` unexamined and continues
with `t`. -/
def spliceForEach (nm : String) : List String → List String
  | [] => []
  | a :: t =>
    if a = nm then
      match t with
      | [] => []
      | b :: t' => b :: spliceForEach nm t'
    else a :: spliceForEach nm t

/-- `Engine.deactivatePlugin` (source lines 208-257): throw `NotRegistered`
for an unknown name; return without touching anything when the manager
reports the plugin inactive; otherwise await the `deactivate` hook (a
failure propagates before any mutation), replace the capability closures
with failing stand-ins, drop the app snapshot, `delete this.events[name]`,
purge `name` from every listener-record array via the `forEach`/`splice`
loop, and fire the optional `onDeactivated` engine hook. -/
def deactivatePlugin (s : EngineState) (m : Manager) (name : String) : Res Unit :=
  match s.plugins with
  | none => ⟨.error .typeError, s, []⟩
  | some ps =>
    match lookupA name ps with
    | none => ⟨.error (.notRegistered name), s, []⟩
    | some plugin =>
      if m.isActive name then
        if plugin.deactivateOk then
          let plugin' : Plugin := { plugin with caps := .stubs, app := none }
          let ps' := insertA name plugin' ps
          match s.events with
          | none =>
            ⟨.error .typeError, { s with plugins := some ps' },
              [.deactivateHook name]⟩
          | some ev =>
            match s.listeners with
            | none =>
              ⟨.error .typeError,
                { s with plugins := some ps', events := some (eraseA name ev) },
                [.deactivateHook name]⟩
            | some ls =>
              ⟨.ok (),
                { s with plugins := some ps',
                         events := some (eraseA name ev),
                         listeners :=
                           some (ls.map (fun kv => (kv.1, spliceForEach name kv.2))) },
                [.deactivateHook name] ++
                  (if s.hasOnDeactivated then [.onDeactivated name] else [])⟩
        else
          ⟨.error (.deactivateFailed name), s, [.deactivateHook name]⟩
      else ⟨.ok (), s, []⟩

/-- `Engine.callMethod` (source lines 103-140). Note the destructuring on
line 109: `const [ to, from ] = await Promise.all([getProfile(caller),
getProfile(target)])` binds `to_` to the *caller's* profile and `from_` to
the *target's* profile; every subsequent use (`canCall from to method`,
`canActivate from to`, `to.methods.includes(method)`) is embedded exactly
as written. (`to`/`from` gain a trailing underscore because `from` is a
Lean keyword.) Activation of an inactive target is performed by
`this.manager.toggleActive(target)` alone. On success the request
`{ from: caller }` is dispatched to the target handle's `addRequest`. -/
def callMethod (s : EngineState) (m : Manager)
    (caller target method : String) (payload : List Val) : Res Unit :=
  match s.plugins with
  | none => ⟨.error .typeError, s, []⟩
  | some ps =>
    match lookupA target ps with
    | none => ⟨.error (.notRegistered target), s, []⟩
    | some _plugin =>
      match m.getProfile caller with
      | none => ⟨.error (.getProfileFailed caller), s, []⟩
      | some to_ =>
        match m.getProfile target with
        | none => ⟨.error (.getProfileFailed target), s, []⟩
        | some from_ =>
          if m.canCall from_ to_ method then
            if !m.isActive target && !m.canActivate from_ to_ then
              ⟨.error (.notActivatable target method), s, []⟩
            else
              let tr : List Effect :=
                if m.isActive target then [] else [.toggleActive target]
              if to_.methods.contains method then
                ⟨.ok (), s, tr ++ [.addRequest target caller method payload]⟩
              else
                ⟨.error (.methodNotExposed method target caller to_.methods), s, tr⟩
          else
            ⟨.error (.permissionDenied caller target method), s, []⟩

/-- Stored callback of listener `l` for composite key `k`: the value the
fan-out loop of `broadcast` reads (`this.events[l][k]`), `none` when either
the listener's table or the entry is missing. -/
def cbOf (ev : List (String × List (String × Cb))) (k l : String) : Option Cb :=
  match lookupA l ev with
  | none => none
  | some tbl => lookupA k tbl

/- Concrete fixtures used by counterexamples and witnesses. -/

/-- Caller profile exposing method `"m"`. -/
def profA : Profile := ⟨"A", ["m"]⟩

/-- Target profile that does not expose `"m"`. -/
def profB : Profile := ⟨"B", ["other"]⟩

/-- Registered target plugin handle `B`. -/
def pluginB : Plugin := ⟨"B", profB, true, true, .uninstalled, none⟩

/-- Engine state with only plugin `B` registered and all tables present. -/
def stCall : EngineState :=
  ⟨some [("B", pluginB)], some [], some [], false, false, false⟩

/-- Profile oracle knowing `A` and `B`. -/
def profileOracle : String → Option Profile :=
  fun n => if n = "A" then some profA else if n = "B" then some profB else none

/-- Manager that grants every permission and reports every plugin active. -/
def mgrAllowAll : Manager :=
  ⟨profileOracle, fun _ => true, fun _ _ _ => true, fun _ _ => true⟩

/-- Manager reporting every plugin inactive and allowing activation only
when the `from` profile is `A`'s. -/
def mgrActOnlyFromA : Manager :=
  ⟨profileOracle, fun _ => false, fun _ _ _ => true, fun f _ => f.name == "A"⟩

/-- Manager reporting every plugin inactive and allowing every activation. -/
def mgrActAlways : Manager :=
  ⟨profileOracle, fun _ => false, fun _ _ _ => true, fun _ _ => true⟩

/-- Manager allowing a call only when the `from` profile is `B`'s. -/
def mgrCallOnlyFromB : Manager :=
  ⟨profileOracle, fun _ => true, fun f _ _ => f.name == "B", fun _ _ => true⟩

/-- Engine state for the `addListener` counterexample: listener `"alice"`
has an (empty) callback table, no listener records yet. -/
def stAddL : EngineState :=
  ⟨some [], some [("alice", [])], some [], false, false, false⟩

/-- Profile of plugin `P`. -/
def profP : Profile := ⟨"P", []⟩

/-- Active plugin handle `P` whose hooks succeed. -/
def pluginP : Plugin := ⟨"P", profP, true, true, .installed, none⟩

/-- Composite key for event `"ev"` emitted by `"E"`. -/
def keyE : String := listenEvent "E" "ev"

/-- Engine state in which `P` is recorded twice in the `(E, ev)` listener
set. -/
def stDupListen : EngineState :=
  ⟨some [("P", pluginP)], some [("P", [])], some [(keyE, ["P", "P"])],
    false, false, false⟩

/-- Engine state in which `P` is recorded once, alongside `"X"`, in the
`(E, ev)` listener set. -/
def stOnceListen : EngineState :=
  ⟨some [("P", pluginP)], some [("P", [])], some [(keyE, ["P", "X"])],
    false, false, false⟩

/-- Callback tables for the broadcast witness: listeners `L1`, `L2` store
callbacks `5`, `6` for the `(E, ev)` key. -/
def evBW : List (String × List (String × Cb)) :=
  [("L1", [(keyE, 5)]), ("L2", [(keyE, 6)])]

/-- Listener records for the broadcast witness. -/
def lsBW : List (String × List String) := [(keyE, ["L1", "L2"])]

/-- Engine state for the broadcast witness. -/
def stBW : EngineState := ⟨some [], some evBW, some lsBW, false, false, false⟩

/-- Engine state with plugin `B` already registered, used by the duplicate
registration witness. -/
def stDupReg : EngineState :=
  ⟨some [("B", pluginB)], none, none, true, false, false⟩

/-- Engine state whose listener-record and callback tables exist but hold
no entry for any `(E, ev)` key: `removeListener` then dereferences an
undefined array. -/
def stNoRecord : EngineState :=
  ⟨some [], some [("L", [])], some [], false, false, false⟩

/-- Engine state for the `removeListener` witness: `L` is recorded (with
`X`) for `(E, ev)` and stores callback `3` there. -/
def stRemL : EngineState :=
  ⟨some [], some [("L", [(keyE, 3)])], some [(keyE, ["L", "X"])],
    false, false, false⟩

/- Helper lemmas about the association-list operations and the
`forEach`/`splice` purge pass. -/

/-- Lookup commutes with mapping over the values of an association list. -/
theorem lookupA_mapVals {β γ : Type} (f : β → γ) (k : String) :
    ∀ l : List (String × β),
      lookupA k (l.map (fun kv => (kv.1, f kv.2))) = (lookupA k l).map f
  | [] => rfl
  | (k', v) :: t => by
    by_cases h : k' = k
    · simp [lookupA, h]
    · simp [lookupA, h, lookupA_mapVals f k t]

/-- Reassigning a key the value it already holds leaves the list unchanged. -/
theorem insertA_self {β : Type} (k : String) (v : β) :
    ∀ l : List (String × β), lookupA k l = some v → insertA k v l = l
  | [], h => by simp [lookupA] at h
  | (k', v') :: t, h => by
    by_cases hk : k' = k
    · subst hk
      simp [lookupA] at h
      simp [insertA, h]
    · simp [lookupA, hk] at h
      simp [insertA, hk, insertA_self k v t h]

/-- Deleting an absent key leaves the list unchanged. -/
theorem eraseA_none {β : Type} (k : String) :
    ∀ l : List (String × β), lookupA k l = none → eraseA k l = l
  | [], _ => rfl
  | (k', v') :: t, h => by
    by_cases hk : k' = k
    · simp [lookupA, hk] at h
    · simp [lookupA, hk] at h
      simp [eraseA, hk, eraseA_none k t h]

/-- The purge pass over a list not containing the name is the identity. -/
theorem spliceForEach_of_not_mem (nm : String) :
    ∀ l : List String, nm ∉ l → spliceForEach nm l = l
  | [], _ => rfl
  | a :: t, h => by
    have ha : ¬(a = nm) := fun e => h (e ▸ List.mem_cons_self a t)
    have ht : nm ∉ t := fun e => h (List.mem_cons_of_mem a e)
    rw [spliceForEach.eq_def]
    simp [ha, spliceForEach_of_not_mem nm t ht]

/-- When the name occurs at most once, the purge pass removes every
occurrence. -/
theorem not_mem_spliceForEach (nm : String) :
    ∀ l : List String, l.count nm ≤ 1 → nm ∉ spliceForEach nm l
  | [], _ => List.not_mem_nil nm
  | a :: t, h => by
    by_cases ha : a = nm
    · subst ha
      have hz : List.count a t = 0 := by
        have h1 := List.count_cons_self a t
        omega
      have hnt : a ∉ t := List.count_eq_zero.mp hz
      cases t with
      | nil =>
        rw [show spliceForEach a [a] = [] by
          rw [spliceForEach.eq_def]
          simp]
        exact List.not_mem_nil a
      | cons b t' =>
        have ht' : a ∉ t' := fun e => hnt (List.mem_cons_of_mem b e)
        rw [show spliceForEach a (a :: b :: t') = b :: spliceForEach a t' by
          rw [spliceForEach.eq_def]
          simp]
        rw [spliceForEach_of_not_mem a t' ht']
        exact hnt
    · have hne : ¬(nm = a) := fun e => ha e.symm
      have hcnt : List.count nm t ≤ 1 :=
        le_trans (List.count_le_count_cons nm a t) h
      have hrec := not_mem_spliceForEach nm t hcnt
      rw [show spliceForEach nm (a :: t) = a :: spliceForEach nm t by
        rw [spliceForEach.eq_def]
        simp [ha]]
      intro hmem
      rcases List.mem_cons.mp hmem with h1 | h2
      · exact hne h1
      · exact hrec h2

/-- Fan-out succeeds and invokes each recorded listener's stored callback
with the payload, in order, when every recorded listener has one. -/
theorem runListeners_ok (ev : List (String × List (String × Cb)))
    (k : String) (payload : List Val) :
    ∀ arr : List String, (∀ l ∈ arr, (cbOf ev k l).isSome) →
      runListeners ev k payload arr =
        .ok (arr.filterMap (fun l => (cbOf ev k l).map (fun cb => (cb, payload))))
  | [], _ => rfl
  | l :: rest, h => by
    have hl := h l (List.mem_cons_self l rest)
    match hlo : lookupA l ev with
    | none => simp [cbOf, hlo] at hl
    | some tbl =>
      match hko : lookupA k tbl with
      | none => simp [cbOf, hlo, hko] at hl
      | some cb =>
        have ih := runListeners_ok ev k payload rest
          (fun x hx => h x (List.mem_cons_of_mem l hx))
        simp [runListeners, hlo, hko, ih, cbOf]

/-- Fan-out aborts with an error — a `TypeError` or the explicit
internal-consistency error — whenever some recorded listener has no stored
callback. -/
theorem runListeners_err (ev : List (String × List (String × Cb)))
    (k : String) (payload : List Val) :
    ∀ arr : List String, (∃ l ∈ arr, cbOf ev k l = none) →
      ∃ e, runListeners ev k payload arr = .error e ∧
        (e = .typeError ∨ ∃ l, e = .internalConsistency l k)
  | [], h => by simp at h
  | l :: rest, h => by
    match hlo : lookupA l ev with
    | none => exact ⟨.typeError, by simp [runListeners, hlo], Or.inl rfl⟩
    | some tbl =>
      match hko : lookupA k tbl with
      | none =>
        exact ⟨.internalConsistency l k, by simp [runListeners, hlo, hko],
          Or.inr ⟨l, rfl⟩⟩
      | some cb =>
        have hrest : ∃ x ∈ rest, cbOf ev k x = none := by
          obtain ⟨x, hx, hcb⟩ := h
          rcases List.mem_cons.mp hx with hxl | hxr
          · subst hxl
            simp [cbOf, hlo, hko] at hcb
          · exact ⟨x, hxr, hcb⟩
        obtain ⟨e, he', hs⟩ := runListeners_err ev k payload rest hrest
        exact ⟨e, by simp [runListeners, hlo, hko, he'], hs⟩

/- Claim theorems. -/

/-- C3: every `Engine` construction fails. The `plugins`, `events` and
`listeners` fields are declared but never assigned (source lines 7-9), and
the constructor immediately calls `register(this.manager)` (line 17),
which indexes the undefined plugin map and throws a `TypeError`, for every
manager profile and any combination of optional engine hooks. -/
theorem engine_construction_always_fails (p : Profile) (hr ha hd : Bool) :
    (mkEngine p hr ha hd).val = .error .typeError ∧
    (mkEngine p hr ha hd).trace = [] :=
  ⟨rfl, rfl⟩

/-- C1 evidence: `callMethod` dispatches a method that the *target's*
profile does not expose. With only `B` (methods `["other"]`) registered,
caller `A` (methods `["m"]`), every permission granted and `B` active,
`callMethod("A","B","m")` succeeds and dispatches `addRequest` instead of
failing with `MethodNotExposed`: the destructuring `const [to, from] =
await Promise.all([getProfile(caller), getProfile(target)])` (line 109)
binds `to` to the caller's profile, so the exposure test
`to.methods.includes(method)` (line 132) checks the caller's methods. -/
theorem callMethod_exposure_checks_caller_profile :
    profB.methods.contains "m" = false ∧
    (callMethod stCall mgrAllowAll "A" "B" "m" []).val = .ok () ∧
    (callMethod stCall mgrAllowAll "A" "B" "m" []).trace =
      [.addRequest "B" "A" "m" []] :=
  ⟨rfl, rfl, rfl⟩

/-- C5 evidence: the `canCall` query receives the profiles swapped. With a
manager whose `canCall(from, to, m)` grants only when `from` is `B`'s
profile — so `canCall(callerProfile, targetProfile, "m")` is false —
`callMethod("A","B","m")` nevertheless succeeds and dispatches
`addRequest`, because line 115 passes `canCall(from, to, method)` where
`from` is the *target's* profile by the swapped destructuring. -/
theorem callMethod_canCall_swaps_profiles :
    mgrCallOnlyFromB.canCall profA profB "m" = false ∧
    (callMethod stCall mgrCallOnlyFromB "A" "B" "m" []).val = .ok () ∧
    (callMethod stCall mgrCallOnlyFromB "A" "B" "m" []).trace =
      [.addRequest "B" "A" "m" []] :=
  ⟨rfl, rfl, rfl⟩

/-- C4 evidence: the activation path of `callMethod` diverges from the
claim twice. With target `B` inactive and a manager for which
`canActivate(callerProfile, targetProfile)` is true (it grants exactly
when the `from` profile is `A`'s), the call fails with `NotActivatable`
and dispatches nothing — the code queries `canActivate(from, to)` with the
profiles swapped (line 123). And with a manager granting every
activation, the
call proceeds with only a `toggleActive` manager-flag flip before the
dispatch: no capability installation and no `activate` hook (the §4.1
`activatePlugin` path) appears in the effect trace. -/
theorem callMethod_activation_swaps_profiles :
    mgrActOnlyFromA.canActivate profA profB = true ∧
    (callMethod stCall mgrActOnlyFromA "A" "B" "m" []).val =
      .error (.notActivatable "B" "m") ∧
    (callMethod stCall mgrActOnlyFromA "A" "B" "m" []).trace = [] ∧
    (callMethod stCall mgrActAlways "A" "B" "m" []).trace =
      [.toggleActive "B", .addRequest "B" "A" "m" []] :=
  ⟨rfl, rfl, rfl, rfl⟩

/-- C2 evidence: `addListener("alice", "em", "ev", cb)` succeeds but
records the ambient global `name` (the empty string) — not `"alice"` — in
the `(em, ev)` listener set (source lines 62-63 test and push the
out-of-scope `name`), and the subsequent `broadcast("em", "ev", 1, 2)`
throws a `TypeError` while reading `this.events[""]`, so `cb` is never
invoked. -/
theorem addListener_records_global_name :
    (addListener stAddL "alice" "em" "ev" 7).val = .ok () ∧
    lookupA (listenEvent "em" "ev")
        (((addListener stAddL "alice" "em" "ev" 7).state).listeners.getD [])
      = some [globalName] ∧
    "alice" ∉ [globalName] ∧
    (broadcast ((addListener stAddL "alice" "em" "ev" 7).state)
        "em" "ev" [1, 2]).val = .error .typeError :=
  ⟨rfl, rfl, by decide, rfl⟩

/-- C6 counterexample: with `P` recorded twice in the `(E, ev)` listener
set, `deactivatePlugin("P")` completes successfully yet leaves one
occurrence of `"P"` behind — the purge loop splices inside `forEach`
(source lines 249-253), skipping the element that slides into a removed
slot — so `P` is not absent from every listener-record set. -/
theorem deactivate_leaves_duplicate_listener :
    (deactivatePlugin stDupListen mgrAllowAll "P").val = .ok () ∧
    lookupA keyE
        (((deactivatePlugin stDupListen mgrAllowAll "P").state).listeners.getD [])
      = some ["P"] ∧
    "P" ∈ ["P"] :=
  ⟨rfl, rfl, by decide⟩

/-- C10 counterexample: with listener-record and callback tables that hold
no entry for the `(E, ev)` key, `removeListener("L", "E", "ev")` throws a
`TypeError` (line 76 calls `.filter` on the undefined
`this.listeners[eventName]`) instead of succeeding as a no-op. -/
theorem removeListener_throws_on_missing_record :
    (removeListener stNoRecord "L" "E" "ev").val = .error .typeError ∧
    (removeListener stNoRecord "L" "E" "ev").state = stNoRecord :=
  ⟨rfl, rfl⟩

/-- C7: `broadcast(E, ev, payload)` is a no-op when the `(E, ev)`
listener-record entry is absent (and, via the success clause with an empty
set, when it is empty); otherwise it invokes, for every listener name in
the set in insertion order, that listener's stored callback with the
payload; and whenever some recorded name has no matching stored callback
it aborts with an error — the explicit internal-consistency error of line
40, or a `TypeError` when the listener's whole callback table is missing —
rather than silently skipping. It never mutates engine state. -/
theorem broadcast_fanout_spec (s : EngineState)
    (ls : List (String × List String)) (ev : List (String × List (String × Cb)))
    (emitter event : String) (payload : List Val)
    (hl : s.listeners = some ls) (he : s.events = some ev) :
    (lookupA (listenEvent emitter event) ls = none →
      (broadcast s emitter event payload).val = .ok []) ∧
    (∀ arr, lookupA (listenEvent emitter event) ls = some arr →
      ((∀ l ∈ arr, (cbOf ev (listenEvent emitter event) l).isSome) →
        (broadcast s emitter event payload).val =
          .ok (arr.filterMap (fun l =>
            (cbOf ev (listenEvent emitter event) l).map (fun cb => (cb, payload))))) ∧
      ((∃ l ∈ arr, cbOf ev (listenEvent emitter event) l = none) →
        ∃ e, (broadcast s emitter event payload).val = .error e ∧
          (e = .typeError ∨
            ∃ l, e = .internalConsistency l (listenEvent emitter event)))) ∧
    (broadcast s emitter event payload).state = s ∧
    (broadcast s emitter event payload).trace = [] := by
  refine ⟨?_, ?_, ?_, ?_⟩
  · intro h
    simp [broadcast, hl, he, h]
  · intro arr harr
    constructor
    · intro hall
      simp [broadcast, hl, he, harr,
        runListeners_ok ev (listenEvent emitter event) payload arr hall]
    · intro hex
      obtain ⟨e, he', hs⟩ :=
        runListeners_err ev (listenEvent emitter event) payload arr hex
      refine ⟨e, ?_, hs⟩
      simp [broadcast, hl, he, harr, he']
  · cases hk : lookupA (listenEvent emitter event) ls <;>
      simp [broadcast, hl, he, hk]
  · cases hk : lookupA (listenEvent emitter event) ls <;>
      simp [broadcast, hl, he, hk]

/-- C7 witness: the fan-out contract instantiated at a concrete state with
two recorded listeners holding callbacks `5` and `6`. -/
theorem broadcast_fanout_spec_witness :
    (lookupA (listenEvent "E" "ev") lsBW = none →
      (broadcast stBW "E" "ev" [1, 2]).val = .ok []) ∧
    (∀ arr, lookupA (listenEvent "E" "ev") lsBW = some arr →
      ((∀ l ∈ arr, (cbOf evBW (listenEvent "E" "ev") l).isSome) →
        (broadcast stBW "E" "ev" [1, 2]).val =
          .ok (arr.filterMap (fun l =>
            (cbOf evBW (listenEvent "E" "ev") l).map (fun cb => (cb, [1, 2]))))) ∧
      ((∃ l ∈ arr, cbOf evBW (listenEvent "E" "ev") l = none) →
        ∃ e, (broadcast stBW "E" "ev" [1, 2]).val = .error e ∧
          (e = .typeError ∨
            ∃ l, e = .internalConsistency l (listenEvent "E" "ev")))) ∧
    (broadcast stBW "E" "ev" [1, 2]).state = stBW ∧
    (broadcast stBW "E" "ev" [1, 2]).trace = [] :=
  broadcast_fanout_spec stBW lsBW evBW "E" "ev" [1, 2] rfl rfl

/-- C8: registering a name already present in the registry fails with
`AlreadyRegistered`, leaves all engine state unchanged (the stored handle
is not replaced), forwards nothing to the PermissionAuthority and fires no
`onRegistration` hook — the effect trace is empty. -/
theorem register_duplicate_rejected (s : EngineState)
    (ps : List (String × Plugin)) (p : Plugin)
    (hp : s.plugins = some ps) (hdup : (lookupA p.name ps).isSome = true) :
    (register s p).val = .error (.alreadyRegistered p.name) ∧
    (register s p).state = s ∧
    (register s p).trace = [] := by
  refine ⟨?_, ?_, ?_⟩ <;> simp [register, hp, hdup]

/-- C8 witness: re-registering plugin `B` on a state that already holds it
(with the `onRegistration` hook defined) fails and changes nothing. -/
theorem register_duplicate_rejected_witness :
    (register stDupReg pluginB).val = .error (.alreadyRegistered pluginB.name) ∧
    (register stDupReg pluginB).state = stDupReg ∧
    (register stDupReg pluginB).trace = [] :=
  register_duplicate_rejected stDupReg [("B", pluginB)] pluginB rfl rfl

/-- C9: `activatePlugin` and `deactivatePlugin` each fail with
`NotRegistered` on an unknown name; for a registered name,
`activatePlugin` is a no-op (no hook invocation, no state change, empty
trace) when the manager reports the plugin active, and `deactivatePlugin`
is a no-op when it reports the plugin inactive. -/
theorem lifecycle_guard_spec (s : EngineState) (ps : List (String × Plugin))
    (m : Manager) (nm : String) (hp : s.plugins = some ps) :
    (lookupA nm ps = none →
      activatePlugin s m nm = ⟨.error (.notRegistered nm), s, []⟩ ∧
      deactivatePlugin s m nm = ⟨.error (.notRegistered nm), s, []⟩) ∧
    (∀ plugin, lookupA nm ps = some plugin → m.isActive nm = true →
      activatePlugin s m nm = ⟨.ok (), s, []⟩) ∧
    (∀ plugin, lookupA nm ps = some plugin → m.isActive nm = false →
      deactivatePlugin s m nm = ⟨.ok (), s, []⟩) := by
  refine ⟨fun h => ⟨?_, ?_⟩, fun plugin h hA => ?_, fun plugin h hA => ?_⟩
  · simp [activatePlugin, hp, h]
  · simp [deactivatePlugin, hp, h]
  · simp [activatePlugin, hp, h, hA]
  · simp [deactivatePlugin, hp, h, hA]

/-- C9 witness: the lifecycle guards instantiated at the state holding
only plugin `B` and the manager reporting everything active. -/
theorem lifecycle_guard_spec_witness :
    (lookupA "B" [("B", pluginB)] = none →
      activatePlugin stCall mgrAllowAll "B" =
        ⟨.error (.notRegistered "B"), stCall, []⟩ ∧
      deactivatePlugin stCall mgrAllowAll "B" =
        ⟨.error (.notRegistered "B"), stCall, []⟩) ∧
    (∀ plugin, lookupA "B" [("B", pluginB)] = some plugin →
      mgrAllowAll.isActive "B" = true →
      activatePlugin stCall mgrAllowAll "B" = ⟨.ok (), stCall, []⟩) ∧
    (∀ plugin, lookupA "B" [("B", pluginB)] = some plugin →
      mgrAllowAll.isActive "B" = false →
      deactivatePlugin stCall mgrAllowAll "B" = ⟨.ok (), stCall, []⟩) :=
  lifecycle_guard_spec stCall [("B", pluginB)] mgrAllowAll "B" rfl

/-- C6 amended: after a successful `deactivatePlugin(nm)`, the name `nm`
is absent from every `(emitter, event)` listener-record set in which it
was recorded at most once (alongside any other listeners); each such set
is replaced by its `forEach`/`splice` purge pass, which removes every
occurrence under that bound. (Sets recording `nm` more than once may
retain occurrences — see `deactivate_leaves_duplicate_listener`.) -/
theorem deactivate_purges_unique_listener_records (s : EngineState)
    (ps : List (String × Plugin)) (plugin : Plugin)
    (ev : List (String × List (String × Cb))) (ls : List (String × List String))
    (m : Manager) (nm : String)
    (hp : s.plugins = some ps) (hq : lookupA nm ps = some plugin)
    (hA : m.isActive nm = true) (hd : plugin.deactivateOk = true)
    (he : s.events = some ev) (hl : s.listeners = some ls) :
    (deactivatePlugin s m nm).val = .ok () ∧
    ∀ k arr, lookupA k ls = some arr → arr.count nm ≤ 1 →
      lookupA k (((deactivatePlugin s m nm).state).listeners.getD []) =
          some (spliceForEach nm arr) ∧
        nm ∉ spliceForEach nm arr := by
  have hred : (deactivatePlugin s m nm).state.listeners =
      some (ls.map (fun kv => (kv.1, spliceForEach nm kv.2))) := by
    simp [deactivatePlugin, hp, hq, hA, hd, he, hl]
  constructor
  · simp [deactivatePlugin, hp, hq, hA, hd, he, hl]
  · intro k arr hk hcount
    rw [hred]
    refine ⟨?_, not_mem_spliceForEach nm arr hcount⟩
    simp [lookupA_mapVals, hk]

/-- C6 witness: deactivating `P` from a state where `P` is recorded once,
alongside `X`, for the `(E, ev)` key. -/
theorem deactivate_purges_unique_listener_records_witness :
    (deactivatePlugin stOnceListen mgrAllowAll "P").val = .ok () ∧
    ∀ k arr, lookupA k [(keyE, ["P", "X"])] = some arr →
      arr.count "P" ≤ 1 →
      lookupA k
          (((deactivatePlugin stOnceListen mgrAllowAll "P").state).listeners.getD []) =
          some (spliceForEach "P" arr) ∧
        "P" ∉ spliceForEach "P" arr :=
  deactivate_purges_unique_listener_records stOnceListen [("P", pluginP)]
    pluginP [("P", [])] [(keyE, ["P", "X"])] mgrAllowAll "P"
    rfl rfl rfl rfl rfl rfl

/-- C10 amended: when the `(emitter, event)` listener-record array and the
listener's callback table both exist, `removeListener` succeeds: it
filters the listener out of the record array and deletes the stored
callback, and it is a no-op — the state is returned unchanged — when the
listener is not in the array and no callback is stored under the key. (If
either the record array or the callback table was never created, it
throws a `TypeError` instead — see
`removeListener_throws_on_missing_record`.) -/
theorem removeListener_amended_spec (s : EngineState)
    (ls : List (String × List String)) (arr : List String)
    (ev : List (String × List (String × Cb))) (tbl : List (String × Cb))
    (listener emitter event : String)
    (hl : s.listeners = some ls)
    (harr : lookupA (listenEvent emitter event) ls = some arr)
    (he : s.events = some ev) (htbl : lookupA listener ev = some tbl) :
    (removeListener s listener emitter event).val = .ok () ∧
    (removeListener s listener emitter event).state.listeners =
      some (insertA (listenEvent emitter event)
        (arr.filter (fun nm => nm != listener)) ls) ∧
    (removeListener s listener emitter event).state.events =
      some (insertA listener (eraseA (listenEvent emitter event) tbl) ev) ∧
    (listener ∉ arr → lookupA (listenEvent emitter event) tbl = none →
      (removeListener s listener emitter event).state = s) := by
  refine ⟨?_, ?_, ?_, ?_⟩
  · simp [removeListener, hl, harr, he, htbl]
  · simp [removeListener, hl, harr, he, htbl]
  · simp [removeListener, hl, harr, he, htbl]
  · intro hnm hnone
    have hfilter : arr.filter (fun nm => nm != listener) = arr := by
      apply List.filter_eq_self.mpr
      intro a ha
      exact bne_iff_ne.mpr (fun e => hnm (e ▸ ha))
    have h2 : eraseA (listenEvent emitter event) tbl = tbl :=
      eraseA_none (listenEvent emitter event) tbl hnone
    obtain ⟨pl, evs, lst, b1, b2, b3⟩ := s
    simp only at hl he
    subst hl
    subst he
    simp [removeListener, harr, htbl, hfilter, h2,
      insertA_self (listenEvent emitter event) arr ls harr,
      insertA_self listener tbl ev htbl]

/-- C10 witness: removing `L`'s `(E, ev)` subscription from a state where
it is recorded (alongside `X`) and stores callback `3`. -/
theorem removeListener_amended_spec_witness :
    (removeListener stRemL "L" "E" "ev").val = .ok () ∧
    (removeListener stRemL "L" "E" "ev").state.listeners =
      some (insertA (listenEvent "E" "ev")
        ((["L", "X"]).filter (fun nm => nm != "L")) [(keyE, ["L", "X"])]) ∧
    (removeListener stRemL "L" "E" "ev").state.events =
      some (insertA "L" (eraseA (listenEvent "E" "ev") [(keyE, 3)])
        [("L", [(keyE, 3)])]) ∧
    ("L" ∉ ["L", "X"] → lookupA (listenEvent "E" "ev") [(keyE, 3)] = none →
      (removeListener stRemL "L" "E" "ev").state = stRemL) :=
  removeListener_amended_spec stRemL [(keyE, ["L", "X"])] ["L", "X"]
    [("L", [(keyE, 3)])] [(keyE, 3)] "L" "E" "ev" rfl rfl rfl rfl

end NextGenEngine
